import Mathlib

/-!
Verification of the playlist ordering engine of the neotune server
(`api/src/playlists/repository.py`).

The database is modelled as three relations: `playlists` (id, user_id),
`songs` (ids) and `playlist_songs` (the membership join table carrying the
integer `order` column).  Each repository method becomes a pure function
from a `DB` to `Except RepoError DB`; the returned state is the state the
surrounding transaction commits, and an error means the transaction is
rolled back, leaving the previous state.
-/

namespace Neotune

/-- A row of the `playlists` table (the columns the ordering engine reads). -/
structure Playlist where
  id : String
  user_id : String
deriving DecidableEq, Repr

/-- A row of the `playlist_songs` join table. -/
structure PlaylistSong where
  playlist_id : String
  song_id : String
  order : Int
deriving DecidableEq, Repr

/-- The database state visible to the playlist repository. -/
structure DB where
  playlists : List Playlist
  songs : List String
  playlist_songs : List PlaylistSong
deriving DecidableEq, Repr

/-- The exceptions raised by `PlaylistRepository` methods:
`NotFoundException`, `ForbiddenException`, `AlreadyExistsException`
and Python `ValueError` (surfaced as the invalid-argument error). -/
inductive RepoError where
  | notFound (msg : String)
  | forbidden (msg : String)
  | alreadyExists (msg : String)
  | valueError (msg : String)
deriving DecidableEq, Repr

/-- `select(Playlist).where(Playlist.id == playlist_id)` + `scalar_one_or_none()`. -/
def findPlaylist (db : DB) (playlist_id : String) : Option Playlist :=
  db.playlists.find? (fun p => decide (p.id = playlist_id))

/-- `select(Song).where(Song.id == song_id)` + `scalar_one_or_none()`, as a Bool. -/
def songExists (db : DB) (song_id : String) : Bool :=
  (db.songs.find? (fun s => decide (s = song_id))).isSome

/-- `select(PlaylistSong).where(playlist_id == ..., song_id == ...)` +
`scalar_one_or_none()`. -/
def findMembership (db : DB) (playlist_id song_id : String) : Option PlaylistSong :=
  db.playlist_songs.find? (fun q => decide (q.playlist_id = playlist_id ∧ q.song_id = song_id))

/-- `select(func.count()).where(PlaylistSong.playlist_id == playlist_id)`. -/
def countSongs (db : DB) (playlist_id : String) : Nat :=
  (db.playlist_songs.filter (fun q => decide (q.playlist_id = playlist_id))).length

/-- `PlaylistRepository.get_song_count`: the count query with the `or 0` default. -/
def get_song_count (db : DB) (playlist_id : String) : Nat :=
  countSongs db playlist_id

/-- The `update ... where order >= r ... set order = order + 1` row transform of
`add_song`. -/
def shiftUpFrom (playlist_id : String) (r : Int) (q : PlaylistSong) : PlaylistSong :=
  if q.playlist_id = playlist_id ∧ r ≤ q.order then { q with order := q.order + 1 } else q

/-- The `update ... where order > r ... set order = order - 1` row transform of
`remove_song`. -/
def shiftDownAfter (playlist_id : String) (r : Int) (q : PlaylistSong) : PlaylistSong :=
  if q.playlist_id = playlist_id ∧ r < q.order then { q with order := q.order - 1 } else q

/-- The moving-down shift of `reorder_song`:
`update ... where current < order <= new ... set order = order - 1`. -/
def shiftRangeDown (playlist_id : String) (c k : Int) (q : PlaylistSong) : PlaylistSong :=
  if q.playlist_id = playlist_id ∧ c < q.order ∧ q.order ≤ k then
    { q with order := q.order - 1 } else q

/-- The moving-up shift of `reorder_song`:
`update ... where new <= order < current ... set order = order + 1`. -/
def shiftRangeUp (playlist_id : String) (c k : Int) (q : PlaylistSong) : PlaylistSong :=
  if q.playlist_id = playlist_id ∧ k ≤ q.order ∧ q.order < c then
    { q with order := q.order + 1 } else q

/-- The final `update ... where song_id == ... set order = new_order` of
`reorder_song`. -/
def setOrder (playlist_id song_id : String) (k : Int) (q : PlaylistSong) : PlaylistSong :=
  if q.playlist_id = playlist_id ∧ q.song_id = song_id then { q with order := k } else q

/-- The `delete ... where playlist_id == ... and song_id == ...` of
`remove_song`. -/
def deleteMembership (l : List PlaylistSong) (playlist_id song_id : String) :
    List PlaylistSong :=
  l.filter (fun q => !(decide (q.playlist_id = playlist_id ∧ q.song_id = song_id)))

/-- `PlaylistRepository.add_song`: ownership and existence guards, then either
append at `count` (no order given) or shift rows with `order >= order` up by
one and insert at the requested order (no bounds check on that path). -/
def add_song (db : DB) (playlist_id user_id song_id : String) (order : Option Int) :
    Except RepoError DB :=
  match findPlaylist db playlist_id with
  | none => .error (.notFound "Playlist not found")
  | some playlist =>
    if playlist.user_id ≠ user_id then
      .error (.forbidden "You do not have permission to modify this playlist")
    else if songExists db song_id = false then
      .error (.notFound "Song not found")
    else if (findMembership db playlist_id song_id).isSome then
      .error (.alreadyExists "Song is already in this playlist")
    else
      match order with
      | none =>
        .ok { db with playlist_songs := db.playlist_songs ++
          [{ playlist_id := playlist_id, song_id := song_id,
             order := (countSongs db playlist_id : Int) }] }
      | some ord =>
        .ok { db with playlist_songs :=
          db.playlist_songs.map (shiftUpFrom playlist_id ord) ++
          [{ playlist_id := playlist_id, song_id := song_id, order := ord }] }

/-- `PlaylistRepository.remove_song`: guards, then delete the membership row and
decrement `order` on every row of the playlist whose order exceeds the removed
one. -/
def remove_song (db : DB) (playlist_id user_id song_id : String) :
    Except RepoError DB :=
  match findPlaylist db playlist_id with
  | none => .error (.notFound "Playlist not found")
  | some playlist =>
    if playlist.user_id ≠ user_id then
      .error (.forbidden "You do not have permission to modify this playlist")
    else
      match findMembership db playlist_id song_id with
      | none => .error (.notFound "Song not found in this playlist")
      | some playlist_song =>
        let remaining := deleteMembership db.playlist_songs playlist_id song_id
        let compacted := remaining.map (shiftDownAfter playlist_id playlist_song.order)
        .ok { db with playlist_songs := compacted }

/-- `PlaylistRepository.reorder_song`: guards, early no-op when the order does
not change, range validation against the member count, then the contiguous
shift followed by the write of the target order. -/
def reorder_song (db : DB) (playlist_id user_id song_id : String) (new_order : Int) :
    Except RepoError DB :=
  match findPlaylist db playlist_id with
  | none => .error (.notFound "Playlist not found")
  | some playlist =>
    if playlist.user_id ≠ user_id then
      .error (.forbidden "You do not have permission to modify this playlist")
    else
      match findMembership db playlist_id song_id with
      | none => .error (.notFound "Song not found in this playlist")
      | some playlist_song =>
        let current_order := playlist_song.order
        if current_order = new_order then
          .ok db
        else
          let song_count : Int := (countSongs db playlist_id : Int)
          if new_order < 0 ∨ song_count ≤ new_order then
            .error (.valueError s!"Invalid order. Order must be between 0 and {song_count - 1}")
          else
            let shifted :=
              if current_order < new_order then
                db.playlist_songs.map (shiftRangeDown playlist_id current_order new_order)
              else
                db.playlist_songs.map (shiftRangeUp playlist_id current_order new_order)
            let final := shifted.map (setOrder playlist_id song_id new_order)
            .ok { db with playlist_songs := final }

/-- One mutating operation of the engine, with its authorization argument. -/
inductive Op where
  | addSong (playlist_id user_id song_id : String) (ord : Option Int)
  | removeSong (playlist_id user_id song_id : String)
  | reorderSong (playlist_id user_id song_id : String) (new_order : Int)
deriving DecidableEq, Repr

/-- Run one operation inside its transaction, returning the raised error if any. -/
def applyOpE (db : DB) : Op → Except RepoError DB
  | .addSong p u s o => add_song db p u s o
  | .removeSong p u s => remove_song db p u s
  | .reorderSong p u s k => reorder_song db p u s k

/-- The committed state after one operation: commit on success, roll back
(keep the previous state) on error. -/
def applyOp (db : DB) (op : Op) : DB :=
  match applyOpE db op with
  | .ok db2 => db2
  | .error _ => db

/-- The committed state after a sequence of operations. -/
def applyOps (db : DB) (ops : List Op) : DB :=
  ops.foldl applyOp db

/-- The membership rows of one playlist, in table order. -/
def rowsOf (db : DB) (playlist_id : String) : List PlaylistSong :=
  db.playlist_songs.filter (fun q => decide (q.playlist_id = playlist_id))

/-- The stored order values of one playlist. -/
def ordersOf (db : DB) (playlist_id : String) : List Int :=
  (rowsOf db playlist_id).map (fun q => q.order)

/-- The list `[0, 1, ..., n-1]` over the integers. -/
def intRange (n : Nat) : List Int :=
  (List.range n).map Int.ofNat

/-- The dense-order invariant for one playlist: the stored order values are a
permutation of `{0, ..., count-1}`. -/
def Dense (db : DB) (playlist_id : String) : Prop :=
  (ordersOf db playlist_id).Perm (intRange (countSongs db playlist_id))

instance (db : DB) (playlist_id : String) : Decidable (Dense db playlist_id) := by
  unfold Dense; infer_instance

/-- The composite primary key of a membership row. -/
def keyOf (q : PlaylistSong) : String × String :=
  (q.playlist_id, q.song_id)

/-- The composite primary key `(playlist_id, song_id)` has no duplicates. -/
def KeysNodup (db : DB) : Prop :=
  (db.playlist_songs.map keyOf).Nodup

instance (db : DB) : Decidable (KeysNodup db) := by
  unfold KeysNodup; infer_instance

/-- An operation respects add bounds when, if it is an add with an explicit
order, that order lies within `[0, member count]` of the target playlist at the
moment it runs. -/
def addInBounds (db : DB) : Op → Bool
  | .addSong p _ _ (some r) => decide (0 ≤ r ∧ r ≤ (countSongs db p : Int))
  | _ => true

/-- Every operation of the sequence respects add bounds at its own turn. -/
def opsInBounds (db : DB) : List Op → Bool
  | [] => true
  | op :: rest => addInBounds db op && opsInBounds (applyOp db op) rest

/-- A database state whose every playlist is dense and whose membership keys
are unique; this is what the engine maintains. -/
def Valid (db : DB) : Prop :=
  (∀ pid, Dense db pid) ∧ KeysNodup db

@[simp] theorem shiftUpFrom_playlist_id (pid : String) (r : Int) (q : PlaylistSong) :
    (shiftUpFrom pid r q).playlist_id = q.playlist_id := by
  unfold shiftUpFrom; split <;> rfl

@[simp] theorem shiftUpFrom_song_id (pid : String) (r : Int) (q : PlaylistSong) :
    (shiftUpFrom pid r q).song_id = q.song_id := by
  unfold shiftUpFrom; split <;> rfl

@[simp] theorem shiftDownAfter_playlist_id (pid : String) (r : Int) (q : PlaylistSong) :
    (shiftDownAfter pid r q).playlist_id = q.playlist_id := by
  unfold shiftDownAfter; split <;> rfl

@[simp] theorem shiftDownAfter_song_id (pid : String) (r : Int) (q : PlaylistSong) :
    (shiftDownAfter pid r q).song_id = q.song_id := by
  unfold shiftDownAfter; split <;> rfl

@[simp] theorem shiftRangeDown_playlist_id (pid : String) (c k : Int) (q : PlaylistSong) :
    (shiftRangeDown pid c k q).playlist_id = q.playlist_id := by
  unfold shiftRangeDown; split <;> rfl

@[simp] theorem shiftRangeDown_song_id (pid : String) (c k : Int) (q : PlaylistSong) :
    (shiftRangeDown pid c k q).song_id = q.song_id := by
  unfold shiftRangeDown; split <;> rfl

@[simp] theorem shiftRangeUp_playlist_id (pid : String) (c k : Int) (q : PlaylistSong) :
    (shiftRangeUp pid c k q).playlist_id = q.playlist_id := by
  unfold shiftRangeUp; split <;> rfl

@[simp] theorem shiftRangeUp_song_id (pid : String) (c k : Int) (q : PlaylistSong) :
    (shiftRangeUp pid c k q).song_id = q.song_id := by
  unfold shiftRangeUp; split <;> rfl

@[simp] theorem setOrder_playlist_id (pid sid : String) (k : Int) (q : PlaylistSong) :
    (setOrder pid sid k q).playlist_id = q.playlist_id := by
  unfold setOrder; split <;> rfl

@[simp] theorem setOrder_song_id (pid sid : String) (k : Int) (q : PlaylistSong) :
    (setOrder pid sid k q).song_id = q.song_id := by
  unfold setOrder; split <;> rfl

@[simp] theorem keyOf_shiftUpFrom (pid : String) (r : Int) (q : PlaylistSong) :
    keyOf (shiftUpFrom pid r q) = keyOf q := by
  unfold keyOf; simp

@[simp] theorem keyOf_shiftDownAfter (pid : String) (r : Int) (q : PlaylistSong) :
    keyOf (shiftDownAfter pid r q) = keyOf q := by
  unfold keyOf; simp

@[simp] theorem keyOf_shiftRangeDown (pid : String) (c k : Int) (q : PlaylistSong) :
    keyOf (shiftRangeDown pid c k q) = keyOf q := by
  unfold keyOf; simp

@[simp] theorem keyOf_shiftRangeUp (pid : String) (c k : Int) (q : PlaylistSong) :
    keyOf (shiftRangeUp pid c k q) = keyOf q := by
  unfold keyOf; simp

@[simp] theorem keyOf_setOrder (pid sid : String) (k : Int) (q : PlaylistSong) :
    keyOf (setOrder pid sid k q) = keyOf q := by
  unfold keyOf; simp

theorem countSongs_eq_length_rowsOf (db : DB) (pid : String) :
    countSongs db pid = (rowsOf db pid).length := rfl

theorem ordersOf_length (db : DB) (pid : String) :
    (ordersOf db pid).length = countSongs db pid := by
  unfold ordersOf
  rw [List.length_map, countSongs_eq_length_rowsOf]

@[simp] theorem intRange_zero : intRange 0 = [] := rfl

theorem intRange_succ (n : Nat) : intRange (n + 1) = intRange n ++ [(n : Int)] := by
  unfold intRange
  rw [List.range_succ, List.map_append]
  rfl

theorem mem_intRange {x : Int} {n : Nat} : x ∈ intRange n ↔ 0 ≤ x ∧ x < (n : Int) := by
  unfold intRange
  simp only [List.mem_map, List.mem_range, Int.ofNat_eq_natCast]
  constructor
  · rintro ⟨k, hk, rfl⟩
    omega
  · rintro ⟨h0, hn⟩
    exact ⟨x.toNat, by omega, by omega⟩

@[simp] theorem intRange_length (n : Nat) : (intRange n).length = n := by
  unfold intRange
  rw [List.length_map, List.length_range]

theorem map_bump_intRange (r : Int) (h0 : 0 ≤ r) :
    ∀ n : Nat, r ≤ (n : Int) →
      (intRange n).map (fun x => if r ≤ x then x + 1 else x) = (intRange (n + 1)).erase r := by
  intro n
  induction n with
  | zero =>
    intro hn
    have hr : r = 0 := by push_cast at hn; omega
    subst hr
    decide
  | succ n ih =>
    intro hn
    by_cases hr : r = (n : Int) + 1
    · have h1 : (intRange (n + 1)).map (fun x => if r ≤ x then x + 1 else x)
          = intRange (n + 1) := by
        refine (List.map_congr_left ?_).trans (List.map_id _)
        intro x hx
        have hb := mem_intRange.1 hx
        have hno : ¬ r ≤ x := by push_cast at hb; omega
        simp [hno]
      have h2 : r ∉ intRange (n + 1) := by
        rw [mem_intRange]; push_cast; omega
      rw [h1, intRange_succ (n + 1), List.erase_append_right _ h2]
      have h3 : ([((n + 1 : Nat) : Int)].erase r) = [] := by
        have he : ((n + 1 : Nat) : Int) = r := by push_cast; omega
        rw [he, List.erase_cons_head]
      rw [h3, List.append_nil]
    · have hrn : r ≤ (n : Int) := by push_cast at hn; omega
      have hmem : r ∈ intRange (n + 1) := mem_intRange.2 ⟨h0, by push_cast; omega⟩
      rw [intRange_succ n, List.map_append, ih hrn,
        intRange_succ (n + 1), List.erase_append_left _ hmem]
      congr 1
      simp only [List.map_cons, List.map_nil]
      rw [if_pos hrn]
      norm_cast

theorem map_unbump_erase_intRange (r : Int) (h0 : 0 ≤ r) :
    ∀ n : Nat, r ≤ (n : Int) →
      ((intRange (n + 1)).erase r).map (fun x => if r < x then x - 1 else x)
        = intRange n := by
  intro n
  induction n with
  | zero =>
    intro hn
    have hr : r = 0 := by push_cast at hn; omega
    subst hr
    decide
  | succ n ih =>
    intro hn
    by_cases hr : r = (n : Int) + 1
    · have h2 : r ∉ intRange (n + 1) := by
        rw [mem_intRange]; push_cast; omega
      rw [intRange_succ (n + 1), List.erase_append_right _ h2]
      have h3 : ([((n + 1 : Nat) : Int)].erase r) = [] := by
        have he : ((n + 1 : Nat) : Int) = r := by push_cast; omega
        rw [he, List.erase_cons_head]
      rw [h3, List.append_nil]
      refine (List.map_congr_left ?_).trans (List.map_id _)
      intro x hx
      have hb := mem_intRange.1 hx
      have hno : ¬ r < x := by push_cast at hb; omega
      simp [hno]
    · have hrn : r ≤ (n : Int) := by push_cast at hn; omega
      have hmem : r ∈ intRange (n + 1) := mem_intRange.2 ⟨h0, by push_cast; omega⟩
      rw [intRange_succ (n + 1), List.erase_append_left _ hmem, List.map_append, ih hrn]
      simp only [List.map_cons, List.map_nil]
      rw [if_pos (by push_cast; omega)]
      rw [show ((n + 1 : Nat) : Int) - 1 = ((n : Nat) : Int) from by push_cast; ring]
      rw [← intRange_succ n]

theorem map_unbump_erase_intRange' (n : Nat) (r : Int) (h0 : 0 ≤ r) (hn : r < (n : Int)) :
    ((intRange n).erase r).map (fun x => if r < x then x - 1 else x) = intRange (n - 1) := by
  cases n with
  | zero => exfalso; push_cast at hn; omega
  | succ m =>
    have h := map_unbump_erase_intRange r h0 m (by push_cast at hn; omega)
    simpa using h

theorem map_shiftdown_erase_intRange (c k : Int) (h0 : 0 ≤ c) (hck : c < k) :
    ∀ n : Nat, k < (n : Int) →
      ((intRange n).erase c).map (fun x => if c < x ∧ x ≤ k then x - 1 else x)
        = (intRange n).erase k := by
  intro n
  induction n with
  | zero => intro hk; exfalso; push_cast at hk; omega
  | succ n ih =>
    intro hk
    by_cases hkn : k = (n : Int)
    · have hc : c ∈ intRange n := mem_intRange.2 ⟨h0, by omega⟩
      have hknot : k ∉ intRange n := by rw [mem_intRange]; omega
      have hn1 : 1 ≤ n := by
        have : (0 : Int) < (n : Int) := by omega
        exact_mod_cast this
      rw [intRange_succ n, List.erase_append_left _ hc, List.map_append,
        List.erase_append_right _ hknot]
      have h3 : ([((n : Nat) : Int)].erase k) = [] := by
        rw [show ((n : Nat) : Int) = k from hkn.symm, List.erase_cons_head]
      rw [h3, List.append_nil]
      have h1 : ((intRange n).erase c).map (fun x => if c < x ∧ x ≤ k then x - 1 else x)
          = ((intRange n).erase c).map (fun x => if c < x then x - 1 else x) := by
        apply List.map_congr_left
        intro x hx
        have hb := mem_intRange.1 (List.mem_of_mem_erase hx)
        by_cases h : c < x
        · rw [if_pos ⟨h, by omega⟩, if_pos h]
        · rw [if_neg (fun hh => h hh.1), if_neg h]
      rw [h1, map_unbump_erase_intRange' n c h0 (by omega)]
      simp only [List.map_cons, List.map_nil]
      rw [if_pos ⟨by omega, by omega⟩]
      rw [show ((n : Nat) : Int) - 1 = ((n - 1 : Nat) : Int) from by omega]
      rw [← intRange_succ (n - 1)]
      rw [show n - 1 + 1 = n from by omega]
    · have hkn2 : k < (n : Int) := by push_cast at hk; omega
      have hc : c ∈ intRange n := mem_intRange.2 ⟨h0, by omega⟩
      have hkm : k ∈ intRange n := mem_intRange.2 ⟨by omega, hkn2⟩
      rw [intRange_succ n, List.erase_append_left _ hc, List.erase_append_left _ hkm,
        List.map_append, ih hkn2]
      congr 1
      simp only [List.map_cons, List.map_nil]
      rw [if_neg (fun hh => by have := hh.2; omega)]

theorem map_shiftup_erase_intRange (c k : Int) (h0 : 0 ≤ k) (hkc : k < c) :
    ∀ n : Nat, c < (n : Int) →
      ((intRange n).erase c).map (fun x => if k ≤ x ∧ x < c then x + 1 else x)
        = (intRange n).erase k := by
  intro n
  induction n with
  | zero => intro hc; exfalso; push_cast at hc; omega
  | succ n ih =>
    intro hc
    by_cases hcn : c = (n : Int)
    · have hcnot : c ∉ intRange n := by rw [mem_intRange]; omega
      have hkm : k ∈ intRange n := mem_intRange.2 ⟨h0, by omega⟩
      rw [intRange_succ n, List.erase_append_right _ hcnot]
      have h3 : ([((n : Nat) : Int)].erase c) = [] := by
        rw [show ((n : Nat) : Int) = c from hcn.symm, List.erase_cons_head]
      rw [h3, List.append_nil]
      have h1 : (intRange n).map (fun x => if k ≤ x ∧ x < c then x + 1 else x)
          = (intRange n).map (fun x => if k ≤ x then x + 1 else x) := by
        apply List.map_congr_left
        intro x hx
        have hb := mem_intRange.1 hx
        by_cases h : k ≤ x
        · rw [if_pos ⟨h, by omega⟩, if_pos h]
        · rw [if_neg (fun hh => h hh.1), if_neg h]
      rw [h1, map_bump_intRange k h0 n (by omega),
        intRange_succ n, List.erase_append_left _ hkm]
    · have hcn2 : c < (n : Int) := by push_cast at hc; omega
      have hcm : c ∈ intRange n := mem_intRange.2 ⟨by omega, hcn2⟩
      have hkm : k ∈ intRange n := mem_intRange.2 ⟨h0, by omega⟩
      rw [intRange_succ n, List.erase_append_left _ hcm, List.erase_append_left _ hkm,
        List.map_append, ih hcn2]
      congr 1
      simp only [List.map_cons, List.map_nil]
      rw [if_neg (fun hh => by have := hh.2; omega)]

theorem perm_insert_intRange (n : Nat) (r : Int) (h0 : 0 ≤ r) (hn : r ≤ (n : Int)) :
    ((intRange n).map (fun x => if r ≤ x then x + 1 else x) ++ [r]).Perm
      (intRange (n + 1)) := by
  rw [map_bump_intRange r h0 n hn]
  have hmem : r ∈ intRange (n + 1) := mem_intRange.2 ⟨h0, by push_cast; omega⟩
  exact (List.perm_append_singleton r _).trans (List.perm_cons_erase hmem).symm

theorem perm_middle_erase {l₁ l₂ l₃ : List Int} {c : Int} (h : (l₁ ++ c :: l₂).Perm l₃) :
    (l₁ ++ l₂).Perm (l₃.erase c) := by
  have hc : c ∈ l₃ := h.mem_iff.1 (by simp)
  have h1 : (c :: (l₁ ++ l₂)).Perm (c :: l₃.erase c) :=
    (List.perm_middle.symm.trans h).trans (List.perm_cons_erase hc)
  exact h1.cons_inv

/-- The rows of one playlist inside a raw membership table. -/
def rowsOfL (l : List PlaylistSong) (pid : String) : List PlaylistSong :=
  l.filter (fun q => decide (q.playlist_id = pid))

/-- The order values of one playlist inside a raw membership table. -/
def ordersOfL (l : List PlaylistSong) (pid : String) : List Int :=
  (rowsOfL l pid).map (fun q => q.order)

/-- The dense-order invariant phrased on a raw membership table. -/
def DenseL (l : List PlaylistSong) (pid : String) : Prop :=
  (ordersOfL l pid).Perm (intRange (rowsOfL l pid).length)

theorem rowsOf_eq_rowsOfL (db : DB) (pid : String) :
    rowsOf db pid = rowsOfL db.playlist_songs pid := rfl

theorem dense_iff_denseL (db : DB) (pid : String) :
    Dense db pid ↔ DenseL db.playlist_songs pid := Iff.rfl

theorem rowsOfL_append (l₁ l₂ : List PlaylistSong) (pid : String) :
    rowsOfL (l₁ ++ l₂) pid = rowsOfL l₁ pid ++ rowsOfL l₂ pid := by
  unfold rowsOfL
  exact List.filter_append _ _

theorem rowsOfL_map (l : List PlaylistSong) (pid : String)
    (f : PlaylistSong → PlaylistSong) (hf : ∀ q, (f q).playlist_id = q.playlist_id) :
    rowsOfL (l.map f) pid = (rowsOfL l pid).map f := by
  unfold rowsOfL
  have hpred : ((fun q => decide (q.playlist_id = pid)) ∘ f)
      = (fun q : PlaylistSong => decide (q.playlist_id = pid)) := by
    funext q
    simp [Function.comp, hf q]
  rw [List.filter_map, hpred]

theorem rowsOfL_map_id (l : List PlaylistSong) (pid : String)
    (f : PlaylistSong → PlaylistSong)
    (hid : ∀ q, q.playlist_id = pid → f q = q)
    (hf : ∀ q, (f q).playlist_id = q.playlist_id) :
    rowsOfL (l.map f) pid = rowsOfL l pid := by
  rw [rowsOfL_map l pid f hf]
  refine (List.map_congr_left ?_).trans (List.map_id _)
  intro q hq
  have hqp : q.playlist_id = pid := by
    have := List.mem_filter.1 hq
    simpa using this.2
  exact hid q hqp

theorem map_map_order (l : List PlaylistSong)
    (f : PlaylistSong → PlaylistSong) (g : Int → Int)
    (hfg : ∀ q ∈ l, (f q).order = g q.order) :
    (l.map f).map (fun q => q.order) = (l.map (fun q => q.order)).map g := by
  rw [List.map_map, List.map_map]
  exact List.map_congr_left (fun q hq => hfg q hq)

theorem mem_rowsOfL {l : List PlaylistSong} {pid : String} {q : PlaylistSong} :
    q ∈ rowsOfL l pid ↔ q ∈ l ∧ q.playlist_id = pid := by
  unfold rowsOfL
  simp [List.mem_filter]

theorem map_keyOf_map (l : List PlaylistSong) (f : PlaylistSong → PlaylistSong)
    (hf : ∀ q, keyOf (f q) = keyOf q) :
    (l.map f).map keyOf = l.map keyOf := by
  rw [List.map_map]
  exact List.map_congr_left (fun q _ => hf q)

theorem find?_key_map (l : List PlaylistSong) (pid sid : String)
    (f : PlaylistSong → PlaylistSong)
    (hp : ∀ q, (f q).playlist_id = q.playlist_id)
    (hs : ∀ q, (f q).song_id = q.song_id) :
    (l.map f).find? (fun q => decide (q.playlist_id = pid ∧ q.song_id = sid))
      = (l.find? (fun q => decide (q.playlist_id = pid ∧ q.song_id = sid))).map f := by
  have hpred : ((fun q => decide (q.playlist_id = pid ∧ q.song_id = sid)) ∘ f)
      = (fun q : PlaylistSong => decide (q.playlist_id = pid ∧ q.song_id = sid)) := by
    funext q
    simp [Function.comp, hp q, hs q]
  rw [List.find?_map, hpred]

theorem membership_split (db : DB) (pid sid : String) (t : PlaylistSong)
    (hk : KeysNodup db) (ht : findMembership db pid sid = some t) :
    ∃ A B, db.playlist_songs = A ++ t :: B
      ∧ t.playlist_id = pid ∧ t.song_id = sid
      ∧ (∀ q ∈ A, ¬(q.playlist_id = pid ∧ q.song_id = sid))
      ∧ (∀ q ∈ B, ¬(q.playlist_id = pid ∧ q.song_id = sid)) := by
  unfold findMembership at ht
  have htmem : t ∈ db.playlist_songs := List.mem_of_find?_eq_some ht
  have htk : t.playlist_id = pid ∧ t.song_id = sid := by
    have h := List.find?_some ht
    simpa using h
  obtain ⟨A, B, hAB⟩ := List.append_of_mem htmem
  have hnd : ((A ++ t :: B).map keyOf).Nodup := by
    unfold KeysNodup at hk
    rwa [hAB] at hk
  rw [List.map_append, List.map_cons, List.nodup_append] at hnd
  obtain ⟨hndA, hndtB, hdisj⟩ := hnd
  have hnotB : keyOf t ∉ B.map keyOf := (List.nodup_cons.1 hndtB).1
  have hnotA : keyOf t ∉ A.map keyOf := fun hmem => hdisj hmem (List.mem_cons_self _ _)
  refine ⟨A, B, hAB, htk.1, htk.2, ?_, ?_⟩
  · intro q hq hcon
    apply hnotA
    have hkey : keyOf q = keyOf t := by
      unfold keyOf
      rw [hcon.1, hcon.2, htk.1, htk.2]
    exact hkey ▸ List.mem_map_of_mem keyOf hq
  · intro q hq hcon
    apply hnotB
    have hkey : keyOf q = keyOf t := by
      unfold keyOf
      rw [hcon.1, hcon.2, htk.1, htk.2]
    exact hkey ▸ List.mem_map_of_mem keyOf hq

theorem add_song_none_eq (db : DB) (pid uid sid : String) (pl : Playlist)
    (hpl : findPlaylist db pid = some pl) (how : pl.user_id = uid)
    (hs : songExists db sid = true) (hm : findMembership db pid sid = none) :
    add_song db pid uid sid none = .ok { db with playlist_songs := db.playlist_songs ++
      [{ playlist_id := pid, song_id := sid, order := (countSongs db pid : Int) }] } := by
  unfold add_song
  rw [hpl]
  simp [how, hs, hm]

theorem add_song_some_eq (db : DB) (pid uid sid : String) (r : Int) (pl : Playlist)
    (hpl : findPlaylist db pid = some pl) (how : pl.user_id = uid)
    (hs : songExists db sid = true) (hm : findMembership db pid sid = none) :
    add_song db pid uid sid (some r) = .ok { db with
      playlist_songs := db.playlist_songs.map (shiftUpFrom pid r) ++
        [{ playlist_id := pid, song_id := sid, order := r }] } := by
  unfold add_song
  rw [hpl]
  simp [how, hs, hm]

theorem remove_song_eq (db : DB) (pid uid sid : String) (pl : Playlist) (t : PlaylistSong)
    (hpl : findPlaylist db pid = some pl) (how : pl.user_id = uid)
    (ht : findMembership db pid sid = some t) :
    remove_song db pid uid sid = .ok { db with
      playlist_songs := List.map (shiftDownAfter pid t.order)
        (deleteMembership db.playlist_songs pid sid) } := by
  unfold remove_song
  rw [hpl]
  simp [how, ht]

theorem reorder_song_noop (db : DB) (pid uid sid : String) (k : Int)
    (pl : Playlist) (t : PlaylistSong)
    (hpl : findPlaylist db pid = some pl) (how : pl.user_id = uid)
    (ht : findMembership db pid sid = some t) (heq : t.order = k) :
    reorder_song db pid uid sid k = .ok db := by
  unfold reorder_song
  rw [hpl]
  simp [how, ht, heq]

theorem reorder_song_move (db : DB) (pid uid sid : String) (k : Int)
    (pl : Playlist) (t : PlaylistSong)
    (hpl : findPlaylist db pid = some pl) (how : pl.user_id = uid)
    (ht : findMembership db pid sid = some t) (hne : t.order ≠ k)
    (hk0 : 0 ≤ k) (hkn : k < (countSongs db pid : Int)) :
    reorder_song db pid uid sid k = .ok { db with
      playlist_songs := List.map (setOrder pid sid k) (if t.order < k
        then List.map (shiftRangeDown pid t.order k) db.playlist_songs
        else List.map (shiftRangeUp pid t.order k) db.playlist_songs) } := by
  unfold reorder_song
  rw [hpl]
  have hval : ¬(k < 0 ∨ (countSongs db pid : Int) ≤ k) := by omega
  simp [how, ht, hne, hval]

theorem denseL_of_rowsOfL_eq (l l₂ : List PlaylistSong) (pid : String)
    (heq : rowsOfL l₂ pid = rowsOfL l pid) (hd : DenseL l pid) : DenseL l₂ pid := by
  unfold DenseL ordersOfL
  rw [heq]
  exact hd

theorem rowsOfL_singleton_self (pid sid : String) (n : Int) :
    rowsOfL [{ playlist_id := pid, song_id := sid, order := n }] pid
      = [{ playlist_id := pid, song_id := sid, order := n }] := by
  unfold rowsOfL
  simp

theorem rowsOfL_singleton_other (pid sid pid2 : String) (n : Int) (hne : pid2 ≠ pid) :
    rowsOfL [{ playlist_id := pid, song_id := sid, order := n }] pid2 = [] := by
  unfold rowsOfL
  simp [Ne.symm hne]

theorem denseL_add_none (l : List PlaylistSong) (pid sid : String) (hd : DenseL l pid) :
    DenseL (l ++ [{ playlist_id := pid, song_id := sid, order := ((rowsOfL l pid).length : Int) }]) pid := by
  unfold DenseL ordersOfL at *
  rw [rowsOfL_append, rowsOfL_singleton_self, List.map_append, List.length_append]
  simp only [List.map_cons, List.map_nil, List.length_cons, List.length_nil, Nat.zero_add]
  have h1 := hd.append_right [((rowsOfL l pid).length : Int)]
  refine h1.trans ?_
  rw [← intRange_succ]

theorem denseL_add_some (l : List PlaylistSong) (pid sid : String) (r : Int)
    (h0 : 0 ≤ r) (hr : r ≤ ((rowsOfL l pid).length : Int)) (hd : DenseL l pid) :
    DenseL (l.map (shiftUpFrom pid r) ++
      [{ playlist_id := pid, song_id := sid, order := r }]) pid := by
  unfold DenseL ordersOfL at *
  rw [rowsOfL_append, rowsOfL_map l pid _ (fun q => shiftUpFrom_playlist_id pid r q),
    rowsOfL_singleton_self, List.map_append, List.length_append, List.length_map]
  simp only [List.map_cons, List.map_nil, List.length_cons, List.length_nil, Nat.zero_add]
  have hmo : ((rowsOfL l pid).map (shiftUpFrom pid r)).map (fun q => q.order)
      = ((rowsOfL l pid).map (fun q => q.order)).map
          (fun x => if r ≤ x then x + 1 else x) := by
    apply map_map_order
    intro q hq
    have hqp : q.playlist_id = pid := (mem_rowsOfL.1 hq).2
    by_cases h : r ≤ q.order <;> simp [shiftUpFrom, hqp, h]
  rw [hmo]
  have h1 : (((rowsOfL l pid).map (fun q => q.order)).map
        (fun x => if r ≤ x then x + 1 else x)).Perm
      ((intRange (rowsOfL l pid).length).map (fun x => if r ≤ x then x + 1 else x)) :=
    hd.map _
  exact (h1.append_right [r]).trans (perm_insert_intRange _ r h0 hr)

theorem rowsOfL_append_other (l : List PlaylistSong) (pid sid pid2 : String) (n : Int)
    (hne : pid2 ≠ pid) :
    rowsOfL (l ++ [{ playlist_id := pid, song_id := sid, order := n }]) pid2
      = rowsOfL l pid2 := by
  rw [rowsOfL_append, rowsOfL_singleton_other pid sid pid2 n hne, List.append_nil]

theorem rowsOfL_delete_other (l : List PlaylistSong) (pid sid pid2 : String)
    (hne : pid2 ≠ pid) :
    rowsOfL (deleteMembership l pid sid) pid2 = rowsOfL l pid2 := by
  unfold rowsOfL deleteMembership
  rw [List.filter_filter]
  apply List.filter_congr
  intro q hq
  by_cases h : q.playlist_id = pid2
  · simp [h]
    exact Or.inl hne
  · simp [h]

theorem rowsOfL_split (A B : List PlaylistSong) (t : PlaylistSong) (pid : String)
    (htp : t.playlist_id = pid) :
    rowsOfL (A ++ t :: B) pid = rowsOfL A pid ++ t :: rowsOfL B pid := by
  rw [rowsOfL_append]
  congr 1
  unfold rowsOfL
  rw [List.filter_cons_of_pos (by simp [htp])]

theorem deleteMembership_split (A B : List PlaylistSong) (t : PlaylistSong) (pid sid : String)
    (htp : t.playlist_id = pid) (hts : t.song_id = sid)
    (hA : ∀ q ∈ A, ¬(q.playlist_id = pid ∧ q.song_id = sid))
    (hB : ∀ q ∈ B, ¬(q.playlist_id = pid ∧ q.song_id = sid)) :
    deleteMembership (A ++ t :: B) pid sid = A ++ B := by
  unfold deleteMembership
  rw [List.filter_append, List.filter_cons_of_neg (by simp [htp, hts])]
  congr 1
  · exact List.filter_eq_self.2 (fun q hq => by simp [hA q hq])
  · exact List.filter_eq_self.2 (fun q hq => by simp [hB q hq])

theorem denseL_remove (A B : List PlaylistSong) (pid sid : String) (t : PlaylistSong)
    (htp : t.playlist_id = pid) (hts : t.song_id = sid)
    (hA : ∀ q ∈ A, ¬(q.playlist_id = pid ∧ q.song_id = sid))
    (hB : ∀ q ∈ B, ¬(q.playlist_id = pid ∧ q.song_id = sid))
    (hd : DenseL (A ++ t :: B) pid) :
    DenseL ((deleteMembership (A ++ t :: B) pid sid).map (shiftDownAfter pid t.order)) pid := by
  rw [deleteMembership_split A B t pid sid htp hts hA hB]
  unfold DenseL ordersOfL at *
  rw [rowsOfL_split A B t pid htp] at hd
  simp only [List.map_append, List.map_cons, List.length_append, List.length_cons] at hd
  rw [rowsOfL_map _ _ _ (fun q => shiftDownAfter_playlist_id pid t.order q), rowsOfL_append]
  have hgo : ((rowsOfL A pid ++ rowsOfL B pid).map (shiftDownAfter pid t.order)).map
        (fun q => q.order)
      = ((rowsOfL A pid ++ rowsOfL B pid).map (fun q => q.order)).map
          (fun x => if t.order < x then x - 1 else x) := by
    apply map_map_order
    intro q hq
    have hqp : q.playlist_id = pid := by
      rcases List.mem_append.1 hq with h | h
      · exact (mem_rowsOfL.1 h).2
      · exact (mem_rowsOfL.1 h).2
    by_cases h : t.order < q.order <;> simp [shiftDownAfter, hqp, h]
  rw [hgo, List.map_append, List.length_map, List.length_append]
  have hcmem : t.order ∈ intRange ((rowsOfL A pid).length + ((rowsOfL B pid).length + 1)) :=
    hd.mem_iff.1 (List.mem_append.2 (Or.inr (List.mem_cons_self _ _)))
  have hcb := mem_intRange.1 hcmem
  have hmid : ((rowsOfL A pid).map (fun q => q.order) ++
        (rowsOfL B pid).map (fun q => q.order)).Perm
      ((intRange ((rowsOfL A pid).length + ((rowsOfL B pid).length + 1))).erase t.order) :=
    perm_middle_erase hd
  have hkey := map_unbump_erase_intRange'
    ((rowsOfL A pid).length + ((rowsOfL B pid).length + 1)) t.order hcb.1 hcb.2
  have hlen : (rowsOfL A pid).length + ((rowsOfL B pid).length + 1) - 1
      = (rowsOfL A pid).length + (rowsOfL B pid).length := by omega
  rw [hlen] at hkey
  exact (hmid.map _).trans (hkey ▸ List.Perm.refl _)

theorem denseL_move (A B : List PlaylistSong) (pid sid : String) (t : PlaylistSong)
    (htp : t.playlist_id = pid) (hts : t.song_id = sid)
    (hA : ∀ q ∈ A, ¬(q.playlist_id = pid ∧ q.song_id = sid))
    (hB : ∀ q ∈ B, ¬(q.playlist_id = pid ∧ q.song_id = sid))
    (g : PlaylistSong → PlaylistSong) (gOrd : Int → Int)
    (hgp : ∀ q, (g q).playlist_id = q.playlist_id)
    (hgs : ∀ q, (g q).song_id = q.song_id)
    (hgo : ∀ q, q.playlist_id = pid → (g q).order = gOrd q.order)
    (k : Int) (n : Nat) (hn : n = (rowsOfL (A ++ t :: B) pid).length)
    (hshift : ((intRange n).erase t.order).map gOrd = (intRange n).erase k)
    (hk : k ∈ intRange n)
    (hd : DenseL (A ++ t :: B) pid) :
    DenseL (((A ++ t :: B).map g).map (setOrder pid sid k)) pid := by
  unfold DenseL ordersOfL at *
  rw [rowsOfL_split A B t pid htp] at hn hd
  simp only [List.length_append, List.length_cons] at hn
  simp only [List.map_append, List.map_cons, List.length_append, List.length_cons] at hd
  rw [← hn] at hd
  rw [rowsOfL_map _ _ _ (fun q => setOrder_playlist_id pid sid k q),
    rowsOfL_map _ _ _ (fun q => hgp q), rowsOfL_split A B t pid htp]
  simp only [List.map_append, List.map_cons, List.length_map, List.length_append,
    List.length_cons]
  rw [← hn]
  have hApart : (((rowsOfL A pid).map g).map (setOrder pid sid k)).map (fun q => q.order)
      = ((rowsOfL A pid).map (fun q => q.order)).map gOrd := by
    simp only [List.map_map]
    apply List.map_congr_left
    intro q hq
    simp only [Function.comp_apply]
    have hqp : q.playlist_id = pid := (mem_rowsOfL.1 hq).2
    have hqs : ¬ q.song_id = sid := fun hs2 => hA q (mem_rowsOfL.1 hq).1 ⟨hqp, hs2⟩
    have hset : setOrder pid sid k (g q) = g q := by
      unfold setOrder
      rw [if_neg (fun hh => hqs (by rw [← hgs q]; exact hh.2))]
    rw [hset]
    exact hgo q hqp
  have hBpart : (((rowsOfL B pid).map g).map (setOrder pid sid k)).map (fun q => q.order)
      = ((rowsOfL B pid).map (fun q => q.order)).map gOrd := by
    simp only [List.map_map]
    apply List.map_congr_left
    intro q hq
    simp only [Function.comp_apply]
    have hqp : q.playlist_id = pid := (mem_rowsOfL.1 hq).2
    have hqs : ¬ q.song_id = sid := fun hs2 => hB q (mem_rowsOfL.1 hq).1 ⟨hqp, hs2⟩
    have hset : setOrder pid sid k (g q) = g q := by
      unfold setOrder
      rw [if_neg (fun hh => hqs (by rw [← hgs q]; exact hh.2))]
    rw [hset]
    exact hgo q hqp
  rw [hApart, hBpart]
  have htmid : (setOrder pid sid k (g t)).order = k := by
    unfold setOrder
    rw [if_pos ⟨by rw [hgp t]; exact htp, by rw [hgs t]; exact hts⟩]
  rw [htmid]
  have hmid : ((rowsOfL A pid).map (fun q => q.order) ++
        (rowsOfL B pid).map (fun q => q.order)).Perm ((intRange n).erase t.order) :=
    perm_middle_erase hd
  have step1 : (((rowsOfL A pid).map (fun q => q.order)).map gOrd ++
        k :: ((rowsOfL B pid).map (fun q => q.order)).map gOrd).Perm
      (k :: (((rowsOfL A pid).map (fun q => q.order) ++
        (rowsOfL B pid).map (fun q => q.order)).map gOrd)) := by
    rw [List.map_append]
    exact List.perm_middle
  refine step1.trans ?_
  refine (List.Perm.cons k (hmid.map gOrd)).trans ?_
  rw [hshift]
  exact (List.perm_cons_erase hk).symm

theorem keysNodup_map_of_nodup (l : List PlaylistSong) (f : PlaylistSong → PlaylistSong)
    (hf : ∀ q, keyOf (f q) = keyOf q) (h : (l.map keyOf).Nodup) :
    ((l.map f).map keyOf).Nodup := by
  rw [map_keyOf_map l f hf]
  exact h

theorem keysNodup_append_new (l : List PlaylistSong) (pid sid : String) (x : PlaylistSong)
    (hx : keyOf x = (pid, sid))
    (hnew : ∀ q ∈ l, ¬(q.playlist_id = pid ∧ q.song_id = sid))
    (h : (l.map keyOf).Nodup) : ((l ++ [x]).map keyOf).Nodup := by
  rw [List.map_append, List.nodup_append]
  refine ⟨h, by simp, ?_⟩
  intro a ha hax
  simp only [List.map_cons, List.map_nil, List.mem_singleton] at hax
  subst hax
  rw [hx] at ha
  obtain ⟨q, hq, hkq⟩ := List.mem_map.1 ha
  apply hnew q hq
  unfold keyOf at hkq
  exact ⟨congrArg Prod.fst hkq, congrArg Prod.snd hkq⟩

theorem keysNodup_sublist (l₁ l₂ : List PlaylistSong) (hsub : List.Sublist l₁ l₂)
    (h : (l₂.map keyOf).Nodup) : (l₁.map keyOf).Nodup :=
  h.sublist (hsub.map keyOf)

theorem notMember_of_findMembership_none (db : DB) (pid sid : String)
    (hm : findMembership db pid sid = none) :
    ∀ q ∈ db.playlist_songs, ¬(q.playlist_id = pid ∧ q.song_id = sid) := by
  unfold findMembership at hm
  intro q hq hcon
  have h := List.find?_eq_none.1 hm q hq
  simp only [decide_eq_true_eq] at h
  exact h hcon

theorem reorder_song_invalid (db : DB) (pid uid sid : String) (k : Int)
    (pl : Playlist) (t : PlaylistSong)
    (hpl : findPlaylist db pid = some pl) (how : pl.user_id = uid)
    (ht : findMembership db pid sid = some t) (hne : t.order ≠ k)
    (hk : k < 0 ∨ (countSongs db pid : Int) ≤ k) :
    reorder_song db pid uid sid k = .error (.valueError
      s!"Invalid order. Order must be between 0 and {(countSongs db pid : Int) - 1}") := by
  unfold reorder_song
  rw [hpl]
  simp [how, ht, hne, hk]

theorem valid_add (db : DB) (pid uid sid : String) (o : Option Int)
    (hv : Valid db) (hb : addInBounds db (Op.addSong pid uid sid o) = true) :
    Valid (applyOp db (Op.addSong pid uid sid o)) := by
  unfold applyOp applyOpE
  show Valid (match add_song db pid uid sid o with
    | .ok db2 => db2
    | .error _ => db)
  cases hpl : findPlaylist db pid with
  | none =>
    have he : add_song db pid uid sid o = .error (.notFound "Playlist not found") := by
      unfold add_song; rw [hpl]
    rw [he]
    exact hv
  | some pl =>
    by_cases how : pl.user_id = uid
    · by_cases hs : songExists db sid = true
      · cases hm : findMembership db pid sid with
        | some t =>
          have he : add_song db pid uid sid o
              = .error (.alreadyExists "Song is already in this playlist") := by
            unfold add_song; rw [hpl]; simp [how, hs, hm]
          rw [he]
          exact hv
        | none =>
          have hnotmem := notMember_of_findMembership_none db pid sid hm
          cases o with
          | none =>
            rw [add_song_none_eq db pid uid sid pl hpl how hs hm]
            constructor
            · intro pid2
              rw [dense_iff_denseL]
              show DenseL (db.playlist_songs ++
                [{ playlist_id := pid, song_id := sid, order := (countSongs db pid : Int) }]) pid2
              by_cases hp2 : pid2 = pid
              · subst hp2
                exact denseL_add_none db.playlist_songs pid2 sid
                  ((dense_iff_denseL db pid2).1 (hv.1 pid2))
              · exact denseL_of_rowsOfL_eq db.playlist_songs _ pid2
                  (rowsOfL_append_other db.playlist_songs pid sid pid2 _ hp2)
                  ((dense_iff_denseL db pid2).1 (hv.1 pid2))
            · show KeysNodup _
              unfold KeysNodup
              exact keysNodup_append_new db.playlist_songs pid sid _ rfl hnotmem hv.2
          | some r =>
            unfold addInBounds at hb
            have hbr := of_decide_eq_true hb
            rw [add_song_some_eq db pid uid sid r pl hpl how hs hm]
            constructor
            · intro pid2
              rw [dense_iff_denseL]
              show DenseL (db.playlist_songs.map (shiftUpFrom pid r) ++
                [{ playlist_id := pid, song_id := sid, order := r }]) pid2
              by_cases hp2 : pid2 = pid
              · subst hp2
                exact denseL_add_some db.playlist_songs pid2 sid r hbr.1 hbr.2
                  ((dense_iff_denseL db pid2).1 (hv.1 pid2))
              · have heq : rowsOfL (db.playlist_songs.map (shiftUpFrom pid r) ++
                    [{ playlist_id := pid, song_id := sid, order := r }]) pid2
                    = rowsOfL db.playlist_songs pid2 := by
                  rw [rowsOfL_append, rowsOfL_singleton_other pid sid pid2 r hp2,
                    List.append_nil]
                  exact rowsOfL_map_id db.playlist_songs pid2 _
                    (fun q hq => by
                      unfold shiftUpFrom
                      rw [if_neg (fun hh => hp2 (hq.symm.trans hh.1))])
                    (fun q => shiftUpFrom_playlist_id pid r q)
                exact denseL_of_rowsOfL_eq db.playlist_songs _ pid2 heq
                  ((dense_iff_denseL db pid2).1 (hv.1 pid2))
            · show KeysNodup _
              unfold KeysNodup
              apply keysNodup_append_new (db.playlist_songs.map (shiftUpFrom pid r)) pid sid
                { playlist_id := pid, song_id := sid, order := r } rfl
              · intro q hq hcon
                obtain ⟨q0, hq0, rfl⟩ := List.mem_map.1 hq
                apply hnotmem q0 hq0
                constructor
                · rw [← shiftUpFrom_playlist_id pid r q0]
                  exact hcon.1
                · rw [← shiftUpFrom_song_id pid r q0]
                  exact hcon.2
              · exact keysNodup_map_of_nodup db.playlist_songs _
                  (fun q => keyOf_shiftUpFrom pid r q) hv.2
      · have hs' : songExists db sid = false := by simpa using hs
        have he : add_song db pid uid sid o = .error (.notFound "Song not found") := by
          unfold add_song; rw [hpl]; simp [how, hs']
        rw [he]
        exact hv
    · have he : add_song db pid uid sid o
        = .error (.forbidden "You do not have permission to modify this playlist") := by
        unfold add_song; rw [hpl]; simp [how]
      rw [he]
      exact hv

theorem valid_remove (db : DB) (pid uid sid : String) (hv : Valid db) :
    Valid (applyOp db (Op.removeSong pid uid sid)) := by
  unfold applyOp applyOpE
  show Valid (match remove_song db pid uid sid with
    | .ok db2 => db2
    | .error _ => db)
  cases hpl : findPlaylist db pid with
  | none =>
    have he : remove_song db pid uid sid = .error (.notFound "Playlist not found") := by
      unfold remove_song; rw [hpl]
    rw [he]
    exact hv
  | some pl =>
    by_cases how : pl.user_id = uid
    · cases hm : findMembership db pid sid with
      | none =>
        have he : remove_song db pid uid sid
            = .error (.notFound "Song not found in this playlist") := by
          unfold remove_song; rw [hpl]; simp [how, hm]
        rw [he]
        exact hv
      | some t =>
        rw [remove_song_eq db pid uid sid pl t hpl how hm]
        obtain ⟨A, B, hAB, htp, hts, hA, hB⟩ := membership_split db pid sid t hv.2 hm
        constructor
        · intro pid2
          rw [dense_iff_denseL]
          show DenseL (List.map (shiftDownAfter pid t.order)
            (deleteMembership db.playlist_songs pid sid)) pid2
          by_cases hp2 : pid2 = pid
          · subst hp2
            rw [hAB]
            exact denseL_remove A B pid2 sid t htp hts hA hB
              (by rw [← hAB]; exact (dense_iff_denseL db pid2).1 (hv.1 pid2))
          · have heq : rowsOfL (List.map (shiftDownAfter pid t.order)
                (deleteMembership db.playlist_songs pid sid)) pid2
                = rowsOfL db.playlist_songs pid2 := by
              rw [rowsOfL_map_id _ pid2 _
                (fun q hq => by
                  unfold shiftDownAfter
                  rw [if_neg (fun hh => hp2 (hq.symm.trans hh.1))])
                (fun q => shiftDownAfter_playlist_id pid t.order q)]
              exact rowsOfL_delete_other db.playlist_songs pid sid pid2 hp2
            exact denseL_of_rowsOfL_eq db.playlist_songs _ pid2 heq
              ((dense_iff_denseL db pid2).1 (hv.1 pid2))
        · show KeysNodup _
          unfold KeysNodup
          apply keysNodup_map_of_nodup _ _ (fun q => keyOf_shiftDownAfter pid t.order q)
          exact keysNodup_sublist _ _ (List.filter_sublist _) hv.2
    · have he : remove_song db pid uid sid
        = .error (.forbidden "You do not have permission to modify this playlist") := by
        unfold remove_song; rw [hpl]; simp [how]
      rw [he]
      exact hv

theorem valid_reorder (db : DB) (pid uid sid : String) (k : Int) (hv : Valid db) :
    Valid (applyOp db (Op.reorderSong pid uid sid k)) := by
  unfold applyOp applyOpE
  show Valid (match reorder_song db pid uid sid k with
    | .ok db2 => db2
    | .error _ => db)
  cases hpl : findPlaylist db pid with
  | none =>
    have he : reorder_song db pid uid sid k = .error (.notFound "Playlist not found") := by
      unfold reorder_song; rw [hpl]
    rw [he]
    exact hv
  | some pl =>
    by_cases how : pl.user_id = uid
    · cases hm : findMembership db pid sid with
      | none =>
        have he : reorder_song db pid uid sid k
            = .error (.notFound "Song not found in this playlist") := by
          unfold reorder_song; rw [hpl]; simp [how, hm]
        rw [he]
        exact hv
      | some t =>
        by_cases heq : t.order = k
        · rw [reorder_song_noop db pid uid sid k pl t hpl how hm heq]
          exact hv
        · by_cases hval : k < 0 ∨ (countSongs db pid : Int) ≤ k
          · rw [reorder_song_invalid db pid uid sid k pl t hpl how hm heq hval]
            exact hv
          · push_neg at hval
            obtain ⟨hk0, hkn⟩ := hval
            rw [reorder_song_move db pid uid sid k pl t hpl how hm heq hk0 hkn]
            obtain ⟨A, B, hAB, htp, hts, hA, hB⟩ := membership_split db pid sid t hv.2 hm
            have hdL : DenseL (A ++ t :: B) pid := by
              rw [← hAB]
              exact (dense_iff_denseL db pid).1 (hv.1 pid)
            have hcmem : t.order ∈ intRange (rowsOfL (A ++ t :: B) pid).length := by
              have hmem0 : t.order ∈ ordersOfL (A ++ t :: B) pid := by
                unfold ordersOfL
                rw [rowsOfL_split A B t pid htp]
                exact List.mem_map_of_mem _
                  (List.mem_append.2 (Or.inr (List.mem_cons_self _ _)))
              exact hdL.mem_iff.1 hmem0
            have hcb := mem_intRange.1 hcmem
            have hkn2 : k < ((rowsOfL (A ++ t :: B) pid).length : Int) := by
              have : (countSongs db pid : Int)
                  = ((rowsOfL (A ++ t :: B) pid).length : Int) := by
                rw [← hAB]
                rfl
              rw [← this]
              exact hkn
            have hkmem : k ∈ intRange (rowsOfL (A ++ t :: B) pid).length :=
              mem_intRange.2 ⟨hk0, hkn2⟩
            constructor
            · intro pid2
              rw [dense_iff_denseL]
              show DenseL (List.map (setOrder pid sid k) (if t.order < k
                then List.map (shiftRangeDown pid t.order k) db.playlist_songs
                else List.map (shiftRangeUp pid t.order k) db.playlist_songs)) pid2
              by_cases hp2 : pid2 = pid
              · subst hp2
                by_cases hdir : t.order < k
                · rw [if_pos hdir, hAB]
                  exact denseL_move A B pid2 sid t htp hts hA hB
                    (shiftRangeDown pid2 t.order k)
                    (fun x => if t.order < x ∧ x ≤ k then x - 1 else x)
                    (fun q => shiftRangeDown_playlist_id pid2 t.order k q)
                    (fun q => shiftRangeDown_song_id pid2 t.order k q)
                    (fun q hq => by
                      unfold shiftRangeDown
                      by_cases h : t.order < q.order ∧ q.order ≤ k
                      · rw [if_pos ⟨hq, h.1, h.2⟩]
                        simp [h]
                      · rw [if_neg (fun hh => h ⟨hh.2.1, hh.2.2⟩)]
                        simp [h])
                    k _ rfl
                    (map_shiftdown_erase_intRange t.order k hcb.1 hdir
                      (rowsOfL (A ++ t :: B) pid2).length hkn2)
                    hkmem hdL
                · have hdir2 : k < t.order := by omega
                  rw [if_neg hdir, hAB]
                  exact denseL_move A B pid2 sid t htp hts hA hB
                    (shiftRangeUp pid2 t.order k)
                    (fun x => if k ≤ x ∧ x < t.order then x + 1 else x)
                    (fun q => shiftRangeUp_playlist_id pid2 t.order k q)
                    (fun q => shiftRangeUp_song_id pid2 t.order k q)
                    (fun q hq => by
                      unfold shiftRangeUp
                      by_cases h : k ≤ q.order ∧ q.order < t.order
                      · rw [if_pos ⟨hq, h.1, h.2⟩]
                        simp [h]
                      · rw [if_neg (fun hh => h ⟨hh.2.1, hh.2.2⟩)]
                        simp [h])
                    k _ rfl
                    (map_shiftup_erase_intRange t.order k hk0 hdir2
                      (rowsOfL (A ++ t :: B) pid2).length hcb.2)
                    hkmem hdL
              · have heq2 : rowsOfL (List.map (setOrder pid sid k) (if t.order < k
                    then List.map (shiftRangeDown pid t.order k) db.playlist_songs
                    else List.map (shiftRangeUp pid t.order k) db.playlist_songs)) pid2
                    = rowsOfL db.playlist_songs pid2 := by
                  rw [rowsOfL_map_id _ pid2 (setOrder pid sid k)
                    (fun q hq => by
                      unfold setOrder
                      rw [if_neg (fun hh => hp2 (hq.symm.trans hh.1))])
                    (fun q => setOrder_playlist_id pid sid k q)]
                  by_cases hdir : t.order < k
                  · rw [if_pos hdir]
                    exact rowsOfL_map_id _ pid2 _
                      (fun q hq => by
                        unfold shiftRangeDown
                        rw [if_neg (fun hh => hp2 (hq.symm.trans hh.1))])
                      (fun q => shiftRangeDown_playlist_id pid t.order k q)
                  · rw [if_neg hdir]
                    exact rowsOfL_map_id _ pid2 _
                      (fun q hq => by
                        unfold shiftRangeUp
                        rw [if_neg (fun hh => hp2 (hq.symm.trans hh.1))])
                      (fun q => shiftRangeUp_playlist_id pid t.order k q)
                exact denseL_of_rowsOfL_eq db.playlist_songs _ pid2 heq2
                  ((dense_iff_denseL db pid2).1 (hv.1 pid2))
            · show KeysNodup _
              unfold KeysNodup
              apply keysNodup_map_of_nodup _ _ (fun q => keyOf_setOrder pid sid k q)
              by_cases hdir : t.order < k
              · rw [if_pos hdir]
                exact keysNodup_map_of_nodup _ _
                  (fun q => keyOf_shiftRangeDown pid t.order k q) hv.2
              · rw [if_neg hdir]
                exact keysNodup_map_of_nodup _ _
                  (fun q => keyOf_shiftRangeUp pid t.order k q) hv.2
    · have he : reorder_song db pid uid sid k
        = .error (.forbidden "You do not have permission to modify this playlist") := by
        unfold reorder_song; rw [hpl]; simp [how]
      rw [he]
      exact hv

theorem valid_applyOp (db : DB) (op : Op) (hv : Valid db)
    (hb : addInBounds db op = true) : Valid (applyOp db op) := by
  cases op with
  | addSong p u s o => exact valid_add db p u s o hv hb
  | removeSong p u s => exact valid_remove db p u s hv
  | reorderSong p u s k => exact valid_reorder db p u s k hv

theorem valid_applyOps (db : DB) (ops : List Op) (hv : Valid db)
    (hb : opsInBounds db ops = true) : Valid (applyOps db ops) := by
  induction ops generalizing db with
  | nil => exact hv
  | cons op rest ih =>
    unfold opsInBounds at hb
    rw [Bool.and_eq_true] at hb
    unfold applyOps
    rw [List.foldl_cons]
    exact ih (applyOp db op) (valid_applyOp db op hv hb.1) hb.2

theorem valid_of_empty (db : DB) (h0 : db.playlist_songs = []) : Valid db := by
  constructor
  · intro pid
    rw [dense_iff_denseL, h0]
    unfold DenseL ordersOfL rowsOfL
    simp
  · unfold KeysNodup
    rw [h0]
    simp

theorem setOrder_shiftRangeDown_eq (pid sid : String) (c k : Int) (hdir : c < k)
    (q : PlaylistSong) :
    setOrder pid sid k (shiftRangeDown pid c k q)
      = if q.playlist_id = pid ∧ q.song_id = sid then { q with order := k }
        else if q.playlist_id = pid ∧ c < k ∧ c < q.order ∧ q.order ≤ k then
          { q with order := q.order - 1 }
        else if q.playlist_id = pid ∧ k < c ∧ k ≤ q.order ∧ q.order < c then
          { q with order := q.order + 1 }
        else q := by
  rcases q with ⟨qp, qs, qo⟩
  unfold setOrder shiftRangeDown
  simp only []
  by_cases h1 : qp = pid ∧ qs = sid
  · by_cases h2 : qp = pid ∧ c < qo ∧ qo ≤ k
    · rw [if_pos h2]
      simp [h1]
    · rw [if_neg h2]
      simp [h1]
  · by_cases h2 : qp = pid ∧ c < qo ∧ qo ≤ k
    · rw [if_pos h2]
      simp only [if_neg h1]
      rw [if_pos ⟨h2.1, hdir, h2.2.1, h2.2.2⟩]
    · rw [if_neg h2]
      simp only [if_neg h1]
      rw [if_neg (fun hh => h2 ⟨hh.1, hh.2.2.1, hh.2.2.2⟩),
        if_neg (fun hh => by have h3 := hh.2.1; omega)]

theorem setOrder_shiftRangeUp_eq (pid sid : String) (c k : Int) (hdir : k < c)
    (q : PlaylistSong) :
    setOrder pid sid k (shiftRangeUp pid c k q)
      = if q.playlist_id = pid ∧ q.song_id = sid then { q with order := k }
        else if q.playlist_id = pid ∧ c < k ∧ c < q.order ∧ q.order ≤ k then
          { q with order := q.order - 1 }
        else if q.playlist_id = pid ∧ k < c ∧ k ≤ q.order ∧ q.order < c then
          { q with order := q.order + 1 }
        else q := by
  rcases q with ⟨qp, qs, qo⟩
  unfold setOrder shiftRangeUp
  simp only []
  by_cases h1 : qp = pid ∧ qs = sid
  · by_cases h2 : qp = pid ∧ k ≤ qo ∧ qo < c
    · rw [if_pos h2]
      simp [h1]
    · rw [if_neg h2]
      simp [h1]
  · by_cases h2 : qp = pid ∧ k ≤ qo ∧ qo < c
    · rw [if_pos h2]
      simp only [if_neg h1]
      rw [if_neg (fun hh => by have h3 := hh.2.1; omega),
        if_pos ⟨h2.1, hdir, h2.2.1, h2.2.2⟩]
    · rw [if_neg h2]
      simp only [if_neg h1]
      rw [if_neg (fun hh => by have h3 := hh.2.1; omega),
        if_neg (fun hh => h2 ⟨hh.1, hh.2.2.1, hh.2.2.2⟩)]

theorem shiftDownAfter_shiftUpFrom (pid : String) (r : Int) (q : PlaylistSong) :
    shiftDownAfter pid r (shiftUpFrom pid r q) = q := by
  rcases q with ⟨qp, qs, qo⟩
  unfold shiftUpFrom shiftDownAfter
  simp only []
  by_cases h1 : qp = pid ∧ r ≤ qo
  · rw [if_pos h1, if_pos ⟨h1.1, (show r < qo + 1 by omega)⟩]
    simp only []
    congr 1
    omega
  · rw [if_neg h1]
    by_cases h2 : qp = pid
    · rw [if_neg (fun hh => h1 ⟨h2, by have h3 : r < qo := hh.2; omega⟩)]
    · rw [if_neg (fun hh => h2 hh.1)]

/-- A fixture: one playlist owned by user `U` with an empty membership table. -/
def exampleEmptyDB : DB :=
  { playlists := [{ id := "P", user_id := "U" }],
    songs := ["S1", "S2"],
    playlist_songs := [] }

/-- A fixture: the playlist of the specification scenarios, holding S1 S2 S3 at
orders 0 1 2. -/
def exampleDB : DB :=
  { playlists := [{ id := "P", user_id := "U" }],
    songs := ["S1", "S2", "S3", "S4"],
    playlist_songs :=
      [{ playlist_id := "P", song_id := "S1", order := 0 },
       { playlist_id := "P", song_id := "S2", order := 1 },
       { playlist_id := "P", song_id := "S3", order := 2 }] }

/-- C1 (amended): starting from an empty membership table, after any sequence
of add/remove/reorder operations the stored order values of every playlist are
exactly `{0, ..., n-1}` for its current member count n, with no gaps and no
duplicates — provided every add that requests an explicit position requests
one inside `[0, member count]` at the moment it runs.  The unvalidated add
path makes the unrestricted claim false (see the counterexample). -/
theorem c1_dense_invariant (db : DB) (ops : List Op) (pid : String)
    (h0 : db.playlist_songs = []) (hb : opsInBounds db ops = true) :
    Dense (applyOps db ops) pid :=
  (valid_applyOps db ops (valid_of_empty db h0) hb).1 pid

/-- C1 counterexample: from an empty playlist, a single add with requested
order 5 (out of range, accepted without validation by the code) yields stored
orders `{5}` instead of `{0}`, refuting the claim as stated. -/
theorem c1_counterexample :
    exampleEmptyDB.playlist_songs = [] ∧
    ¬ Dense (applyOps exampleEmptyDB [Op.addSong "P" "U" "S1" (some 5)]) "P" :=
  ⟨rfl, by decide⟩

/-- C1 witness: a concrete in-bounds sequence of all four operation kinds,
run from the empty table, ends dense. -/
theorem c1_dense_invariant_witness :
    Dense (applyOps exampleEmptyDB
      [Op.addSong "P" "U" "S1" none, Op.addSong "P" "U" "S2" (some 0),
       Op.reorderSong "P" "U" "S2" 1, Op.removeSong "P" "U" "S1"]) "P" :=
  c1_dense_invariant exampleEmptyDB _ "P" rfl (by decide)

/-- C3: when the guards pass, add with a requested order increments by one the
order of exactly the existing rows with `order >= requestedOrder` and inserts
the new membership at the requested order; the requested order is any integer,
with no bounds validation. -/
theorem c3_add_at_requested_order (db : DB) (pid uid sid : String) (r : Int)
    (pl : Playlist)
    (hpl : findPlaylist db pid = some pl) (how : pl.user_id = uid)
    (hs : songExists db sid = true) (hm : findMembership db pid sid = none) :
    add_song db pid uid sid (some r) = .ok { db with
      playlist_songs := db.playlist_songs.map (fun q =>
        if q.playlist_id = pid ∧ r ≤ q.order then { q with order := q.order + 1 } else q) ++
        [{ playlist_id := pid, song_id := sid, order := r }] } := by
  rw [add_song_some_eq db pid uid sid r pl hpl how hs hm]
  rfl

/-- C3 witness: inserting S4 at the out-of-range order 7 of a three-element
playlist is accepted and shifts nothing. -/
theorem c3_add_at_requested_order_witness :
    add_song exampleDB "P" "U" "S4" (some 7) = .ok { exampleDB with
      playlist_songs := exampleDB.playlist_songs.map (fun q =>
        if q.playlist_id = "P" ∧ (7 : Int) ≤ q.order then { q with order := q.order + 1 }
        else q) ++
        [{ playlist_id := "P", song_id := "S4", order := 7 }] } :=
  c3_add_at_requested_order exampleDB "P" "U" "S4" 7 { id := "P", user_id := "U" }
    rfl rfl rfl rfl

/-- C4: when the guards pass, remove deletes the membership row and decrements
the order of exactly the remaining rows of the playlist whose order exceeds the
removed row's order, leaving lower orders unchanged. -/
theorem c4_remove_compacting_shift (db : DB) (pid uid sid : String)
    (pl : Playlist) (t : PlaylistSong)
    (hpl : findPlaylist db pid = some pl) (how : pl.user_id = uid)
    (ht : findMembership db pid sid = some t) :
    remove_song db pid uid sid = .ok { db with
      playlist_songs := List.map (fun q =>
        if q.playlist_id = pid ∧ t.order < q.order then { q with order := q.order - 1 }
        else q)
        (db.playlist_songs.filter (fun q =>
          !(decide (q.playlist_id = pid ∧ q.song_id = sid)))) } := by
  rw [remove_song_eq db pid uid sid pl t hpl how ht]
  rfl

/-- C4 witness: removing S2 from [S1, S2, S3] compacts S3 to order 1. -/
theorem c4_remove_compacting_shift_witness :
    remove_song exampleDB "P" "U" "S2" = .ok { exampleDB with
      playlist_songs := List.map (fun q =>
        if q.playlist_id = "P" ∧ (1 : Int) < q.order then { q with order := q.order - 1 }
        else q)
        (exampleDB.playlist_songs.filter (fun q =>
          !(decide (q.playlist_id = "P" ∧ q.song_id = "S2")))) } :=
  c4_remove_compacting_shift exampleDB "P" "U" "S2" { id := "P", user_id := "U" }
    { playlist_id := "P", song_id := "S2", order := 1 } rfl rfl rfl

/-- C5: when the guards pass, add without a requested order appends the new
membership at order = current member count and leaves every existing row
untouched. -/
theorem c5_add_appends_at_member_count (db : DB) (pid uid sid : String)
    (pl : Playlist)
    (hpl : findPlaylist db pid = some pl) (how : pl.user_id = uid)
    (hs : songExists db sid = true) (hm : findMembership db pid sid = none) :
    add_song db pid uid sid none = .ok { db with
      playlist_songs := db.playlist_songs ++
        [{ playlist_id := pid, song_id := sid, order := (countSongs db pid : Int) }] } :=
  add_song_none_eq db pid uid sid pl hpl how hs hm

/-- C5 witness: Scenario A — adding S4 with no order to [S1, S2, S3] places it
at order 3. -/
theorem c5_add_appends_at_member_count_witness :
    add_song exampleDB "P" "U" "S4" none = .ok { exampleDB with
      playlist_songs := exampleDB.playlist_songs ++
        [{ playlist_id := "P", song_id := "S4", order := (countSongs exampleDB "P" : Int) }] } :=
  c5_add_appends_at_member_count exampleDB "P" "U" "S4" { id := "P", user_id := "U" }
    rfl rfl rfl rfl

/-- C7: the failure taxonomy of add, in the order the code checks: NotFound
when the playlist is absent, Forbidden when the caller is not the owner,
NotFound when the song is absent, AlreadyExists when the song is already a
member, and success (no error) when none of these hold. -/
theorem c7_add_failure_taxonomy (db : DB) (pid uid sid : String) (o : Option Int) :
    (findPlaylist db pid = none →
      add_song db pid uid sid o = .error (.notFound "Playlist not found")) ∧
    (∀ pl, findPlaylist db pid = some pl → pl.user_id ≠ uid →
      add_song db pid uid sid o
        = .error (.forbidden "You do not have permission to modify this playlist")) ∧
    (∀ pl, findPlaylist db pid = some pl → pl.user_id = uid → songExists db sid = false →
      add_song db pid uid sid o = .error (.notFound "Song not found")) ∧
    (∀ pl t, findPlaylist db pid = some pl → pl.user_id = uid → songExists db sid = true →
      findMembership db pid sid = some t →
      add_song db pid uid sid o = .error (.alreadyExists "Song is already in this playlist")) ∧
    (∀ pl, findPlaylist db pid = some pl → pl.user_id = uid → songExists db sid = true →
      findMembership db pid sid = none → (add_song db pid uid sid o).isOk = true) := by
  refine ⟨?_, ?_, ?_, ?_, ?_⟩
  · intro hpl
    unfold add_song
    rw [hpl]
  · intro pl hpl how
    unfold add_song
    rw [hpl]
    simp [how]
  · intro pl hpl how hs
    unfold add_song
    rw [hpl]
    simp [how, hs]
  · intro pl t hpl how hs hm
    unfold add_song
    rw [hpl]
    simp [how, hs, hm]
  · intro pl hpl how hs hm
    cases o with
    | none =>
      rw [add_song_none_eq db pid uid sid pl hpl how hs hm]
      rfl
    | some r =>
      rw [add_song_some_eq db pid uid sid r pl hpl how hs hm]
      rfl

/-- C7 witness: the success clause on the scenario playlist. -/
theorem c7_add_failure_taxonomy_witness :
    (add_song exampleDB "P" "U" "S4" none).isOk = true :=
  (c7_add_failure_taxonomy exampleDB "P" "U" "S4" none).2.2.2.2
    { id := "P", user_id := "U" } rfl rfl rfl rfl

/-- C10: get_song_count is total — it returns the number of membership rows of
the playlist id, and in particular 0 (raising nothing) when the playlist has no
rows, including when the playlist itself does not exist. -/
theorem c10_get_song_count_total (db : DB) (pid : String) :
    get_song_count db pid = (rowsOf db pid).length ∧
    (findPlaylist db pid = none → get_song_count db pid = (rowsOf db pid).length) ∧
    (rowsOf db pid = [] → get_song_count db pid = 0) := by
  refine ⟨rfl, fun _ => rfl, fun h => ?_⟩
  have h1 : get_song_count db pid = (rowsOf db pid).length := rfl
  rw [h1, h]
  rfl

/-- C10 witness: counting a playlist id that does not exist returns 0. -/
theorem c10_get_song_count_total_witness :
    get_song_count exampleEmptyDB "NOPE" = 0 :=
  (c10_get_song_count_total exampleEmptyDB "NOPE").2.2 rfl

/-- C2: for a member with current order c and a valid target order k different
from c, reorder shifts down by one exactly the playlist rows with
`c < order <= k` when moving down (c < k), shifts up by one exactly the rows
with `k <= order < c` when moving up (c > k), writes k into the target row,
and leaves every other row unchanged. -/
theorem c2_reorder_shift_semantics (db : DB) (pid uid sid : String) (k : Int)
    (pl : Playlist) (t : PlaylistSong)
    (hpl : findPlaylist db pid = some pl) (how : pl.user_id = uid)
    (ht : findMembership db pid sid = some t)
    (hk0 : 0 ≤ k) (hkn : k < (countSongs db pid : Int)) (hne : k ≠ t.order) :
    reorder_song db pid uid sid k = .ok { db with
      playlist_songs := db.playlist_songs.map (fun q =>
        if q.playlist_id = pid ∧ q.song_id = sid then { q with order := k }
        else if q.playlist_id = pid ∧ t.order < k ∧ t.order < q.order ∧ q.order ≤ k then
          { q with order := q.order - 1 }
        else if q.playlist_id = pid ∧ k < t.order ∧ k ≤ q.order ∧ q.order < t.order then
          { q with order := q.order + 1 }
        else q) } := by
  rw [reorder_song_move db pid uid sid k pl t hpl how ht (Ne.symm hne) hk0 hkn]
  by_cases hdir : t.order < k
  · rw [if_pos hdir, List.map_map]
    have hmap : List.map (setOrder pid sid k ∘ shiftRangeDown pid t.order k) db.playlist_songs
        = db.playlist_songs.map (fun q =>
          if q.playlist_id = pid ∧ q.song_id = sid then { q with order := k }
          else if q.playlist_id = pid ∧ t.order < k ∧ t.order < q.order ∧ q.order ≤ k then
            { q with order := q.order - 1 }
          else if q.playlist_id = pid ∧ k < t.order ∧ k ≤ q.order ∧ q.order < t.order then
            { q with order := q.order + 1 }
          else q) :=
      List.map_congr_left (fun q _ => setOrder_shiftRangeDown_eq pid sid t.order k hdir q)
    rw [hmap]
  · have hdir2 : k < t.order := by
      rcases lt_or_eq_of_le (not_lt.1 hdir) with h | h
      · exact h
      · exact absurd h.symm (Ne.symm hne)
    rw [if_neg hdir, List.map_map]
    have hmap : List.map (setOrder pid sid k ∘ shiftRangeUp pid t.order k) db.playlist_songs
        = db.playlist_songs.map (fun q =>
          if q.playlist_id = pid ∧ q.song_id = sid then { q with order := k }
          else if q.playlist_id = pid ∧ t.order < k ∧ t.order < q.order ∧ q.order ≤ k then
            { q with order := q.order - 1 }
          else if q.playlist_id = pid ∧ k < t.order ∧ k ≤ q.order ∧ q.order < t.order then
            { q with order := q.order + 1 }
          else q) :=
      List.map_congr_left (fun q _ => setOrder_shiftRangeUp_eq pid sid t.order k hdir2 q)
    rw [hmap]

/-- C2 witness: Scenario C restricted to [S1, S2, S3] — moving S1 from order 0
to order 2 shifts S2 and S3 down by one. -/
theorem c2_reorder_shift_semantics_witness :
    reorder_song exampleDB "P" "U" "S1" 2 = .ok { exampleDB with
      playlist_songs := exampleDB.playlist_songs.map (fun q =>
        if q.playlist_id = "P" ∧ q.song_id = "S1" then { q with order := 2 }
        else if q.playlist_id = "P" ∧ (0 : Int) < 2 ∧ (0 : Int) < q.order ∧ q.order ≤ 2 then
          { q with order := q.order - 1 }
        else if q.playlist_id = "P" ∧ (2 : Int) < 0 ∧ (2 : Int) ≤ q.order ∧ q.order < 0 then
          { q with order := q.order + 1 }
        else q) } :=
  c2_reorder_shift_semantics exampleDB "P" "U" "S1" 2 { id := "P", user_id := "U" }
    { playlist_id := "P", song_id := "S1", order := 0 } rfl rfl rfl
    (by decide) (by decide) (by decide)

/-- C6: a failed operation commits nothing — the rolled-back state equals the
prior state for every erroring operation; in particular, reorder with a target
order outside `[0, memberCount)` on a dense playlist raises the invalid-order
error and leaves the table unchanged. -/
theorem c6_error_atomicity (db : DB) (op : Op) (pid uid sid : String) (k : Int)
    (pl : Playlist) (t : PlaylistSong)
    (hpl : findPlaylist db pid = some pl) (how : pl.user_id = uid)
    (ht : findMembership db pid sid = some t) (hd : Dense db pid)
    (hk : k < 0 ∨ (countSongs db pid : Int) ≤ k) :
    ((applyOpE db op).isOk = false → applyOp db op = db) ∧
    reorder_song db pid uid sid k = .error (.valueError
      s!"Invalid order. Order must be between 0 and {(countSongs db pid : Int) - 1}") ∧
    applyOp db (Op.reorderSong pid uid sid k) = db := by
  have htm : t ∈ db.playlist_songs := by
    unfold findMembership at ht
    exact List.mem_of_find?_eq_some ht
  have htp : t.playlist_id = pid := by
    unfold findMembership at ht
    have h := List.find?_some ht
    simp only [decide_eq_true_eq] at h
    exact h.1
  have hcmem : t.order ∈ intRange (countSongs db pid) := by
    apply hd.mem_iff.1
    unfold ordersOf
    exact List.mem_map_of_mem _
      ((mem_rowsOfL (l := db.playlist_songs)).2 ⟨htm, htp⟩)
  have hcb := mem_intRange.1 hcmem
  have hne : t.order ≠ k := by omega
  have herr := reorder_song_invalid db pid uid sid k pl t hpl how ht hne hk
  refine ⟨?_, herr, ?_⟩
  · intro hnotok
    unfold applyOp
    cases hres : applyOpE db op with
    | ok db2 =>
      rw [hres] at hnotok
      simp [Except.isOk, Except.toBool] at hnotok
    | error e => rfl
  · unfold applyOp applyOpE
    show (match reorder_song db pid uid sid k with
      | .ok db2 => db2
      | .error _ => db) = db
    rw [herr]

/-- C6 witness: on the scenario playlist, an add naming a missing playlist
rolls back, and reorder to order 5 (count is 3) raises the invalid-order error
and leaves the state unchanged. -/
theorem c6_error_atomicity_witness :
    ((applyOpE exampleDB (Op.addSong "Q" "U" "S1" none)).isOk = false →
      applyOp exampleDB (Op.addSong "Q" "U" "S1" none) = exampleDB) ∧
    reorder_song exampleDB "P" "U" "S1" 5 = .error (.valueError
      "Invalid order. Order must be between 0 and 2") ∧
    applyOp exampleDB (Op.reorderSong "P" "U" "S1" 5) = exampleDB :=
  c6_error_atomicity exampleDB (Op.addSong "Q" "U" "S1" none) "P" "U" "S1" 5
    { id := "P", user_id := "U" } { playlist_id := "P", song_id := "S1", order := 0 }
    rfl rfl rfl (by decide) (by decide)

theorem deleteMembership_append_new (l : List PlaylistSong) (pid sid : String)
    (x : PlaylistSong) (hxp : x.playlist_id = pid) (hxs : x.song_id = sid)
    (hnot : ∀ q ∈ l, ¬(q.playlist_id = pid ∧ q.song_id = sid)) :
    deleteMembership (l ++ [x]) pid sid = l := by
  unfold deleteMembership
  rw [List.filter_append, List.filter_cons_of_neg (by simp [hxp, hxs]),
    List.filter_nil, List.append_nil]
  exact List.filter_eq_self.2 (fun q hq => by simp [hnot q hq])

theorem map_shiftDownAfter_count_id (db : DB) (pid : String) (hd : Dense db pid) :
    db.playlist_songs.map (shiftDownAfter pid (countSongs db pid : Int))
      = db.playlist_songs := by
  refine (List.map_congr_left ?_).trans (List.map_id _)
  intro q hq
  unfold shiftDownAfter
  by_cases hqp : q.playlist_id = pid
  · have hqm : q.order ∈ intRange (countSongs db pid) := by
      apply hd.mem_iff.1
      unfold ordersOf
      exact List.mem_map_of_mem _
        ((mem_rowsOfL (l := db.playlist_songs)).2 ⟨hq, hqp⟩)
    have hb := mem_intRange.1 hqm
    rw [if_neg (fun hh => by have h3 := hh.2; omega)]
    rfl
  · rw [if_neg (fun hh => hqp hh.1)]
    rfl

/-- C8: on a dense playlist, adding a non-member song (with or without a
requested order, the requested order unrestricted) and then removing it
returns the membership table exactly to its prior state. -/
theorem c8_add_remove_roundtrip (db : DB) (pid uid sid : String) (o : Option Int)
    (pl : Playlist)
    (hpl : findPlaylist db pid = some pl) (how : pl.user_id = uid)
    (hs : songExists db sid = true) (hm : findMembership db pid sid = none)
    (hd : Dense db pid) :
    ∃ db1, add_song db pid uid sid o = .ok db1 ∧ remove_song db1 pid uid sid = .ok db := by
  have hnot := notMember_of_findMembership_none db pid sid hm
  cases o with
  | none =>
    refine ⟨_, add_song_none_eq db pid uid sid pl hpl how hs hm, ?_⟩
    have hm1 : findMembership { db with playlist_songs := db.playlist_songs ++
        [{ playlist_id := pid, song_id := sid, order := (countSongs db pid : Int) }] } pid sid
        = some { playlist_id := pid, song_id := sid, order := (countSongs db pid : Int) } := by
      unfold findMembership
      show (db.playlist_songs ++ [_]).find? _ = _
      rw [List.find?_append]
      unfold findMembership at hm
      rw [hm, Option.none_or]
      simp
    rw [remove_song_eq { db with playlist_songs := db.playlist_songs ++
        [{ playlist_id := pid, song_id := sid, order := (countSongs db pid : Int) }] }
      pid uid sid pl
      { playlist_id := pid, song_id := sid, order := (countSongs db pid : Int) }
      hpl how hm1]
    show Except.ok { db with
      playlist_songs := List.map (shiftDownAfter pid (countSongs db pid : Int))
        (deleteMembership (db.playlist_songs ++
          [{ playlist_id := pid, song_id := sid, order := (countSongs db pid : Int) }])
          pid sid) } = Except.ok db
    rw [deleteMembership_append_new db.playlist_songs pid sid _ rfl rfl hnot,
      map_shiftDownAfter_count_id db pid hd]
  | some r =>
    refine ⟨_, add_song_some_eq db pid uid sid r pl hpl how hs hm, ?_⟩
    have hm1 : findMembership { db with
        playlist_songs := db.playlist_songs.map (shiftUpFrom pid r) ++
          [{ playlist_id := pid, song_id := sid, order := r }] } pid sid
        = some { playlist_id := pid, song_id := sid, order := r } := by
      unfold findMembership
      show (db.playlist_songs.map (shiftUpFrom pid r) ++ [_]).find? _ = _
      rw [List.find?_append,
        find?_key_map db.playlist_songs pid sid _
          (fun q => shiftUpFrom_playlist_id pid r q)
          (fun q => shiftUpFrom_song_id pid r q)]
      unfold findMembership at hm
      rw [hm]
      simp
    rw [remove_song_eq { db with playlist_songs := db.playlist_songs.map (shiftUpFrom pid r) ++
        [{ playlist_id := pid, song_id := sid, order := r }] }
      pid uid sid pl { playlist_id := pid, song_id := sid, order := r }
      hpl how hm1]
    show Except.ok { db with
      playlist_songs := List.map (shiftDownAfter pid r)
        (deleteMembership (db.playlist_songs.map (shiftUpFrom pid r) ++
          [{ playlist_id := pid, song_id := sid, order := r }]) pid sid) } = Except.ok db
    rw [deleteMembership_append_new (db.playlist_songs.map (shiftUpFrom pid r)) pid sid _
      rfl rfl (fun q hq hcon => by
        obtain ⟨q0, hq0, rfl⟩ := List.mem_map.1 hq
        exact hnot q0 hq0
          ⟨by rw [← shiftUpFrom_playlist_id pid r q0]; exact hcon.1,
           by rw [← shiftUpFrom_song_id pid r q0]; exact hcon.2⟩)]
    rw [List.map_map]
    have hid : List.map (shiftDownAfter pid r ∘ shiftUpFrom pid r) db.playlist_songs
        = db.playlist_songs :=
      (List.map_congr_left (fun q _ => shiftDownAfter_shiftUpFrom pid r q)).trans
        (List.map_id _)
    rw [hid]

/-- C8 witness: adding S4 at order 1 of the scenario playlist and removing it
restores the exact prior table. -/
theorem c8_add_remove_roundtrip_witness :
    ∃ db1, add_song exampleDB "P" "U" "S4" (some 1) = .ok db1 ∧
      remove_song db1 "P" "U" "S4" = .ok exampleDB :=
  c8_add_remove_roundtrip exampleDB "P" "U" "S4" (some 1) { id := "P", user_id := "U" }
    rfl rfl rfl rfl (by decide)

/-- C9: after a successful reorder of a song to order k, repeating the same
call is a no-op — it raises no error and leaves the table exactly as after the
first call. -/
theorem c9_reorder_idempotent (db db1 : DB) (pid uid sid : String) (k : Int)
    (h : reorder_song db pid uid sid k = .ok db1) :
    reorder_song db1 pid uid sid k = .ok db1 := by
  cases hpl : findPlaylist db pid with
  | none =>
    have he : reorder_song db pid uid sid k = .error (.notFound "Playlist not found") := by
      unfold reorder_song
      rw [hpl]
    rw [he] at h
    simp at h
  | some pl =>
    by_cases how : pl.user_id = uid
    · cases hm : findMembership db pid sid with
      | none =>
        have he : reorder_song db pid uid sid k
            = .error (.notFound "Song not found in this playlist") := by
          unfold reorder_song
          rw [hpl]
          simp [how, hm]
        rw [he] at h
        simp at h
      | some t =>
        have htk : t.playlist_id = pid ∧ t.song_id = sid := by
          unfold findMembership at hm
          have h2 := List.find?_some hm
          simpa using h2
        by_cases heq : t.order = k
        · rw [reorder_song_noop db pid uid sid k pl t hpl how hm heq] at h
          simp only [Except.ok.injEq] at h
          subst h
          exact reorder_song_noop db pid uid sid k pl t hpl how hm heq
        · by_cases hval : k < 0 ∨ (countSongs db pid : Int) ≤ k
          · rw [reorder_song_invalid db pid uid sid k pl t hpl how hm heq hval] at h
            simp at h
          · push_neg at hval
            obtain ⟨hk0, hkn⟩ := hval
            rw [reorder_song_move db pid uid sid k pl t hpl how hm heq hk0 hkn] at h
            simp only [Except.ok.injEq] at h
            subst h
            by_cases hdir : t.order < k
            · rw [if_pos hdir]
              have h1 : (shiftRangeDown pid t.order k t).playlist_id = pid := by
                rw [shiftRangeDown_playlist_id]
                exact htk.1
              have h2 : (shiftRangeDown pid t.order k t).song_id = sid := by
                rw [shiftRangeDown_song_id]
                exact htk.2
              have ht2 : (setOrder pid sid k (shiftRangeDown pid t.order k t)).order = k := by
                unfold setOrder
                rw [if_pos ⟨h1, h2⟩]
              have hm2 : findMembership { db with
                  playlist_songs := List.map (setOrder pid sid k)
                    (List.map (shiftRangeDown pid t.order k) db.playlist_songs) } pid sid
                  = some (setOrder pid sid k (shiftRangeDown pid t.order k t)) := by
                unfold findMembership
                show ((db.playlist_songs.map (shiftRangeDown pid t.order k)).map
                  (setOrder pid sid k)).find? _ = _
                rw [find?_key_map _ pid sid _
                    (fun q => setOrder_playlist_id pid sid k q)
                    (fun q => setOrder_song_id pid sid k q),
                  find?_key_map _ pid sid _
                    (fun q => shiftRangeDown_playlist_id pid t.order k q)
                    (fun q => shiftRangeDown_song_id pid t.order k q)]
                unfold findMembership at hm
                rw [hm]
                rfl
              exact reorder_song_noop _ pid uid sid k pl _ hpl how hm2 ht2
            · rw [if_neg hdir]
              have h1 : (shiftRangeUp pid t.order k t).playlist_id = pid := by
                rw [shiftRangeUp_playlist_id]
                exact htk.1
              have h2 : (shiftRangeUp pid t.order k t).song_id = sid := by
                rw [shiftRangeUp_song_id]
                exact htk.2
              have ht2 : (setOrder pid sid k (shiftRangeUp pid t.order k t)).order = k := by
                unfold setOrder
                rw [if_pos ⟨h1, h2⟩]
              have hm2 : findMembership { db with
                  playlist_songs := List.map (setOrder pid sid k)
                    (List.map (shiftRangeUp pid t.order k) db.playlist_songs) } pid sid
                  = some (setOrder pid sid k (shiftRangeUp pid t.order k t)) := by
                unfold findMembership
                show ((db.playlist_songs.map (shiftRangeUp pid t.order k)).map
                  (setOrder pid sid k)).find? _ = _
                rw [find?_key_map _ pid sid _
                    (fun q => setOrder_playlist_id pid sid k q)
                    (fun q => setOrder_song_id pid sid k q),
                  find?_key_map _ pid sid _
                    (fun q => shiftRangeUp_playlist_id pid t.order k q)
                    (fun q => shiftRangeUp_song_id pid t.order k q)]
                unfold findMembership at hm
                rw [hm]
                rfl
              exact reorder_song_noop _ pid uid sid k pl _ hpl how hm2 ht2
    · have he : reorder_song db pid uid sid k
          = .error (.forbidden "You do not have permission to modify this playlist") := by
        unfold reorder_song
        rw [hpl]
        simp [how]
      rw [he] at h
      simp at h

/-- A fixture: the scenario playlist after the successful reorder of S1 to
order 2. -/
def exampleReordered : DB :=
  { playlists := [{ id := "P", user_id := "U" }],
    songs := ["S1", "S2", "S3", "S4"],
    playlist_songs :=
      [{ playlist_id := "P", song_id := "S1", order := 2 },
       { playlist_id := "P", song_id := "S2", order := 0 },
       { playlist_id := "P", song_id := "S3", order := 1 }] }

/-- C9 witness: repeating the reorder of S1 to order 2 after it succeeded once
returns the same state with no error. -/
theorem c9_reorder_idempotent_witness :
    reorder_song exampleReordered "P" "U" "S1" 2 = .ok exampleReordered :=
  c9_reorder_idempotent exampleDB exampleReordered "P" "U" "S1" 2 (by rfl)

end Neotune
